import Mathlib

/-!
Verification of the fund-comparator pipeline (app.py).

The pipeline is shallowly embedded: pandas timestamps become a calendar
Date structure compared through a day-number conversion, NAV values become
rationals, the float power used by the CAGR computation becomes the real
power Real.rpow, and every fallible code path (network fetch, JSON body,
registry file) becomes a total Lean function over an explicit outcome type,
returning the same empty result the Python except-branches return.
-/

namespace FundComparator

/-- A calendar date, the model of a pandas Timestamp at day resolution. -/
structure Date where
  y : Int
  m : Nat
  d : Nat
deriving DecidableEq, Repr

/-- Gregorian leap-year rule, as used by pandas timestamps. -/
def isLeap (y : Int) : Bool :=
  y % 4 = 0 && (y % 100 != 0 || y % 400 = 0)

/-- Number of days in a month of a given year. -/
def daysInMonth (y : Int) (m : Nat) : Nat :=
  if m = 2 then (if isLeap y then 29 else 28)
  else if m = 4 || m = 6 || m = 9 || m = 11 then 30
  else 31

/-- Day number of a calendar date (days since 1970-01-01, civil calendar),
the model of the absolute time a pandas Timestamp carries: subtracting two
timestamps yields the difference of their day numbers, and comparing two
timestamps compares their day numbers. -/
def toDays (dt : Date) : Int :=
  let y : Int := if dt.m ≤ 2 then dt.y - 1 else dt.y
  let era : Int := Int.fdiv y 400
  let yoe : Int := y - era * 400
  let mp : Int := if dt.m ≤ 2 then (dt.m : Int) + 9 else (dt.m : Int) - 3
  let doy : Int := (153 * mp + 2) / 5 + (dt.d : Int) - 1
  let doe : Int := yoe * 365 + yoe / 4 - yoe / 100 + doy
  era * 146097 + doe - 719468

/-- Calendar-month subtraction with day clamping, the model of
pandas DateOffset(months=k) applied by subtraction: the month index moves
back by k and the day is clamped to the length of the target month. -/
def subMonths (dt : Date) (k : Nat) : Date :=
  let t : Int := dt.y * 12 + ((dt.m : Int) - 1) - (k : Int)
  let y2 : Int := Int.fdiv t 12
  let m2 : Nat := (Int.emod t 12).toNat + 1
  { y := y2, m := m2, d := min dt.d (daysInMonth y2 m2) }

/-- One row of a NAV series: a date and a net asset value. -/
structure NavPoint where
  date : Date
  nav : ℚ
deriving DecidableEq, Repr

/-- Date order on NAV points, through the day-number conversion. -/
def dateLe (p q : NavPoint) : Prop := toDays p.date ≤ toDays q.date

instance : DecidableRel dateLe := fun p q => Int.decLe (toDays p.date) (toDays q.date)

instance : IsTotal NavPoint dateLe := ⟨fun p q => Int.le_total (toDays p.date) (toDays q.date)⟩

instance : IsTrans NavPoint dateLe := ⟨fun _ _ _ h h2 => le_trans h h2⟩

/-- Split a character list at every separator recognized by the predicate,
keeping empty pieces, the model of str.split with an explicit separator. -/
def splitChar (p : Char → Bool) : List Char → List (List Char)
  | [] => [[]]
  | c :: cs =>
    let r := splitChar p cs
    if p c then [] :: r
    else
      match r with
      | [] => [[c]]
      | h :: t => (c :: h) :: t

/-- Numeric value of a decimal digit character. -/
def digitVal (c : Char) : Nat := c.toNat - 48

/-- Value of a non-empty all-digit character list, the model of int() on a
decimal field; anything else fails. -/
def digitsToNat (l : List Char) : Option Nat :=
  if l ≠ [] && l.all Char.isDigit then
    some (l.foldl (fun acc c => acc * 10 + digitVal c) 0)
  else none

/-- Drop leading and trailing whitespace, the model of str.strip(). -/
def trimChars (l : List Char) : List Char :=
  ((l.dropWhile Char.isWhitespace).reverse.dropWhile Char.isWhitespace).reverse

/-- Uppercase one character in the ASCII range, the model of str.upper()
on the ASCII names of the registry. -/
def upChar (c : Char) : Char :=
  if 97 ≤ c.toNat && c.toNat ≤ 122 then Char.ofNat (c.toNat - 32) else c

/-- Uppercase a character list. -/
def upChars (l : List Char) : List Char := l.map upChar

/-- The strip-then-uppercase normalization applied to the guest input. -/
def pyStripUpper (s : String) : String := String.mk (upChars (trimChars s.data))

/-- Code-point lexicographic order on character lists, the order Python
uses to compare strings. -/
def lexLeChars : List Char → List Char → Bool
  | [], _ => true
  | _ :: _, [] => false
  | a :: as, b :: bs =>
    if a.toNat < b.toNat then true
    else if b.toNat < a.toNat then false
    else lexLeChars as bs

/-- Strict date parse in the fixed day-month-year format, the model of
pandas to_datetime with format day-month-Year: three dash-separated numeric
fields, four-digit year, and the day must exist in the given month
(to_datetime raises on an out-of-range day, which the caller catches). -/
def parseDate (s : String) : Option Date :=
  match splitChar (fun c => c = '-') s.data with
  | [ds, ms, ys] =>
    match digitsToNat ds, digitsToNat ms, digitsToNat ys with
    | some d, some m, some y =>
      if ds.length ≤ 2 && ms.length ≤ 2 && ys.length = 4 &&
         1 ≤ m && m ≤ 12 && 1 ≤ d && d ≤ daysInMonth (y : Int) m
      then some { y := (y : Int), m := m, d := d }
      else none
    | _, _, _ => none
  | _ => none

/-- Decimal parse of a NAV string, the model of pandas to_numeric on one
value: optional leading minus, an integer part, an optional fractional part.
Anything else fails (to_numeric raises, which the caller catches). -/
def parseNav (s : String) : Option ℚ :=
  let t := trimChars s.data
  let neg : Bool := match t with
    | c :: _ => c == '-'
    | [] => false
  let body := if neg then t.drop 1 else t
  match splitChar (fun c => c = '.') body with
  | [i] => (digitsToNat i).map (fun n => if neg then -(n : ℚ) else (n : ℚ))
  | [i, f] =>
    match digitsToNat i, digitsToNat f with
    | some ni, some nf =>
      some ((if neg then -1 else 1) * ((ni : ℚ) + (nf : ℚ) / 10 ^ f.length))
    | _, _ => none
  | _ => none

/-- One raw record of the remote JSON body: a date string and a nav string. -/
structure RawRecord where
  date : String
  nav : String
deriving DecidableEq, Repr

/-- The JSON body of a 200 response: either it fails to parse as the
expected shape (response.json() or the field accesses raise), or it yields
the list held under the data key (absent key yields the empty list). -/
inductive Body where
  | malformed : Body
  | json : List RawRecord → Body
deriving DecidableEq, Repr

/-- Everything the network can hand back to get_nav_history: a raised
transport error, or a response with a status code and a body. -/
inductive FetchOutcome where
  | transportError : FetchOutcome
  | response : Nat → Body → FetchOutcome
deriving DecidableEq, Repr

/-- Parse every raw record; any single malformed date or nav fails the
whole batch, the model of pandas to_datetime/to_numeric applied to whole
columns raising on the first bad value. -/
def parseRecords : List RawRecord → Option (List NavPoint)
  | [] => some []
  | r :: rs =>
    match parseDate r.date, parseNav r.nav, parseRecords rs with
    | some d, some v, some ps => some ({ date := d, nav := v } :: ps)
    | _, _, _ => none

/-- The history fetcher (get_nav_history in app.py): on a transport error,
a non-200 status, a malformed body, an empty data list, or a parse failure
of any record it returns the empty series (the except branch and the two
explicit empty-DataFrame returns); otherwise it returns the parsed points
sorted ascending by date (df.sort_values on the date column). -/
def get_nav_history : FetchOutcome → List NavPoint
  | .transportError => []
  | .response status body =>
    if status = 200 then
      match body with
      | .malformed => []
      | .json navList =>
        if navList = [] then []
        else
          match parseRecords navList with
          | none => []
          | some pts => List.insertionSort dateLe pts
    else []

/-- The lookback choices offered by the sidebar (time_map in app.py):
label to number of months, with 999 standing for the Max choice. -/
def time_map : List (String × Nat) :=
  [("3M", 3), ("6M", 6), ("1Y", 12), ("2Y", 24), ("3Y", 36), ("5Y", 60), ("Max", 999)]

/-- Latest date of a series, the model of df.date.max() on a non-empty df. -/
def maxDateOf : List NavPoint → Option Date
  | [] => none
  | p :: ps => some (ps.foldl (fun acc q => if toDays acc < toDays q.date then q.date else acc) p.date)

/-- The chart date-range filter (app.py lines 341-345): on a non-empty
series, when the chosen months value is not the Max sentinel 999, keep the
rows whose date is at or after the latest date minus that many calendar
months (pandas DateOffset); the Max sentinel keeps everything. -/
def applyLookback (df : List NavPoint) (months : Nat) : List NavPoint :=
  if months = 999 then df
  else
    match maxDateOf df with
    | none => df
    | some end_date =>
      let start_date := subMonths end_date months
      df.filter (fun p => toDays start_date ≤ toDays p.date)

/-- The normalization block (app.py lines 348-350): rebase every nav to
nav / start_val * 100 where start_val is the nav of the first row; the
block only runs on a non-empty series, and no guard for a zero start_val
exists in the code. -/
def normalizeSeries (df : List NavPoint) : List NavPoint :=
  match df with
  | [] => []
  | p :: _ => df.map (fun q => { q with nav := q.nav / p.nav * 100 })

/-- The metrics record built by calculate_metrics. The displayed strings
are modelled by their numeric contents; the CAGR cell is an Option, none
standing for the N/A string. -/
structure Metrics where
  fund : String
  totalReturn : ℚ
  cagr : Option ℝ
  years : ℚ
  startNav : ℚ
  endNav : ℚ

/-- calculate_metrics (app.py lines 139-163): none on an empty or
one-point series; otherwise total return, duration in years out of the day
difference over 365.25 (zero when the day difference is not positive), the
CAGR value from the real power with exponent one over years (zero when
years is not positive), and an N/A CAGR cell whenever years < 0.9.
The float power of the source is modelled by the real power Real.rpow,
which is why this definition is not computable. -/
noncomputable def calculate_metrics (df : List NavPoint) (label : String) : Option Metrics :=
  if df.isEmpty || df.length < 2 then none
  else
    match df.head?, df.getLast? with
    | some p0, some pl =>
      let start_val := p0.nav
      let end_val := pl.nav
      let total_return := (end_val - start_val) / start_val * 100
      let days : Int := toDays pl.date - toDays p0.date
      let years : ℚ := if 0 < days then (days : ℚ) / (1461 / 4) else 0
      let cagr : ℝ :=
        if 0 < years then (((end_val / start_val : ℚ) : ℝ) ^ ((1 : ℝ) / (years : ℝ)) - 1) * 100
        else 0
      some
        { fund := label
          totalReturn := total_return
          cagr := if (9 : ℚ) / 10 ≤ years then some cagr else none
          years := years
          startNav := start_val
          endNav := end_val }
    | _, _ => none

/-- One value of the registry JSON object: an optional scheme name and an
optional source code. A missing field models an absent JSON key; the model
carries codes as strings (the source casts them with str). -/
structure RegEntry where
  scheme : Option String
  amfi : Option String
deriving DecidableEq, Repr

/-- Python truthiness of the optional amfi field: present and non-empty. -/
def truthyAmfi (e : RegEntry) : Bool :=
  match e.amfi with
  | some a => a ≠ ""
  | none => false

/-- Python str.split() with no argument: split on runs of whitespace and
drop the empty pieces. -/
def pysplit (s : String) : List (List Char) :=
  (splitChar Char.isWhitespace s.data).filter (fun w => w ≠ [])

/-- The scheme name used for an entry: the scheme field, or the key when
the field is absent (meta.get with the key as default). -/
def entryName (key : String) (e : RegEntry) : String :=
  e.scheme.getD key

/-- An entry on which the loop of load_fund_registry raises: the amfi
field is truthy, the name is truthy, yet splitting the name yields no
first token (a non-empty all-whitespace name), so indexing [0] raises. -/
def badEntry (key : String) (e : RegEntry) : Bool :=
  truthyAmfi e && entryName key e ≠ "" && pysplit (entryName key e) = []

/-- The pseudo-AMC group key: the uppercased first whitespace token of the
name when the name is truthy, the sentinel OTHER otherwise. Only applied
to names that do yield a first token (see badEntry for the raising case). -/
def groupKey (name : String) : String :=
  if name ≠ "" then String.mk (upChars ((pysplit name).headD [])) else "OTHER"

/-- One dropdown item built by the loader: label, source code, name. -/
structure FundItem where
  label : String
  amfi : String
  name : String
deriving DecidableEq, Repr

/-- Label order on dropdown items, the key of the sort in the loader:
code-point lexicographic comparison of the label strings, the order of the
Python sorted call. -/
def labelLe (a b : FundItem) : Prop := lexLeChars a.label.data b.label.data = true

instance : DecidableRel labelLe :=
  fun a b => instDecidableEqBool (lexLeChars a.label.data b.label.data) true

instance : IsTotal FundItem labelLe := by
  constructor
  have key : ∀ u v : List Char, lexLeChars u v = true ∨ lexLeChars v u = true := by
    intro u
    induction u with
    | nil => intro v; left; simp [lexLeChars]
    | cons a as ih =>
      intro v
      cases v with
      | nil => right; simp [lexLeChars]
      | cons b bs =>
        simp only [lexLeChars]
        by_cases h1 : a.toNat < b.toNat
        · left; simp [h1]
        · by_cases h2 : b.toNat < a.toNat
          · right; simp [h1, h2]
          · rcases ih bs with h | h
            · left; simp [h1, h2, h]
            · right; simp [h1, h2, h]
  intro a b
  exact key a.label.data b.label.data

instance : IsTrans FundItem labelLe := by
  constructor
  have key : ∀ u v w : List Char,
      lexLeChars u v = true → lexLeChars v w = true → lexLeChars u w = true := by
    intro u
    induction u with
    | nil => intro v w h1 h2; simp [lexLeChars]
    | cons a as ih =>
      intro v w h1 h2
      cases v with
      | nil => simp [lexLeChars] at h1
      | cons b bs =>
        cases w with
        | nil => simp [lexLeChars] at h2
        | cons c cs =>
          simp only [lexLeChars] at h1 h2 ⊢
          by_cases hab : a.toNat < b.toNat
          · by_cases hbc : b.toNat < c.toNat
            · have hac : a.toNat < c.toNat := lt_trans hab hbc
              simp [hac]
            · by_cases hcb : c.toNat < b.toNat
              · simp [hbc, hcb] at h2
              · have hac : a.toNat < c.toNat := by omega
                simp [hac]
          · by_cases hba : b.toNat < a.toNat
            · simp [hab, hba] at h1
            · simp [hab, hba] at h1
              by_cases hbc : b.toNat < c.toNat
              · have hac : a.toNat < c.toNat := by omega
                simp [hac]
              · by_cases hcb : c.toNat < b.toNat
                · simp [hbc, hcb] at h2
                · simp [hbc, hcb] at h2
                  have hac : ¬ a.toNat < c.toNat := by omega
                  have hca : ¬ c.toNat < a.toNat := by omega
                  simp [hac, hca]
                  exact ih bs cs h1 h2
  intro a b c h1 h2
  exact key a.label.data b.label.data c.label.data h1 h2

/-- Append an item to the group of the given key, keeping the insertion
order of groups and of items within a group (Python dict plus list append). -/
def addToGroup (idx : List (String × List FundItem)) (k : String) (it : FundItem) :
    List (String × List FundItem) :=
  match idx with
  | [] => [(k, [it])]
  | (g, its) :: rest =>
    if g = k then (g, its ++ [it]) :: rest else (g, its) :: addToGroup rest k it

/-- One iteration of the loader loop: an entry with a truthy amfi field is
appended to the group of its derived key; any other entry is skipped. -/
def registryStep (idx : List (String × List FundItem)) (e : String × RegEntry) :
    List (String × List FundItem) :=
  let name := entryName e.1 e.2
  match e.2.amfi with
  | some a =>
    if a = "" then idx
    else addToGroup idx (groupKey name) { label := name, amfi := a, name := name }
  | none => idx

/-- The grouping loop of load_fund_registry over all entries. -/
def buildGroups (entries : List (String × RegEntry)) : List (String × List FundItem) :=
  entries.foldl registryStep []

/-- The structural invariant of the grouped view: every item sits in the
group derived from its own name and carries a non-empty source code. -/
def GroupInv (idx : List (String × List FundItem)) : Prop :=
  ∀ g its, (g, its) ∈ idx → ∀ it ∈ its, g = groupKey it.name ∧ it.amfi ≠ ""

/-- The final sorting pass of the loader: each group list sorted ascending
by label. -/
def sortGroups (idx : List (String × List FundItem)) : List (String × List FundItem) :=
  idx.map (fun g => (g.1, List.insertionSort labelLe g.2))

/-- What the registry file can present to the loader: missing from duty,
unreadable or not JSON (json.load raises), or a parsed object given as a
key-ordered association list. -/
inductive RegistryFile where
  | missing : RegistryFile
  | malformed : RegistryFile
  | content : List (String × RegEntry) → RegistryFile
deriving DecidableEq, Repr

/-- load_fund_registry (app.py lines 62-109): a missing file yields two
empty views; a malformed file raises inside the try block and the except
branch yields two empty views; a raising entry (see badEntry) inside the
loop likewise aborts the whole call to two empty views; otherwise the
grouped view is built and sorted while the raw JSON object is returned
verbatim as the lookup view. -/
def load_fund_registry : RegistryFile → (List (String × List FundItem)) × (List (String × RegEntry))
  | .missing => ([], [])
  | .malformed => ([], [])
  | .content entries =>
    if entries.any (fun e => badEntry e.1 e.2) then ([], [])
    else (sortGroups (buildGroups entries), entries)

/-- One fetch target of the chart engine: source code, display label, and
the guest flag. -/
structure Target where
  code : String
  name : String
  is_guest : Bool
deriving DecidableEq, Repr

/-- Exact-key lookup in the raw registry object, the model of the Python
membership test and indexing on the loaded dict. -/
def lookupReg (reg : List (String × RegEntry)) (k : String) : Option RegEntry :=
  (reg.find? (fun e => e.1 = k)).map (fun e => e.2)

/-- The final_targets assembly (app.py lines 296-321): one non-guest
target per basket item in order, then, when the guest input is truthy, one
guest target whose code is resolved through the raw registry (the
registry code only when the matched entry has a truthy amfi field,
otherwise the cleaned input itself) and whose name is the guest label
exactly as supplied. -/
def resolveTargets (basket : List FundItem) (guest_input : String) (guest_name : String)
    (raw_registry : List (String × RegEntry)) : List Target :=
  let base := basket.map (fun it => { code := it.amfi, name := it.name, is_guest := false : Target })
  if guest_input = "" then base
  else
    let clean_input := pyStripUpper guest_input
    let resolved_amfi :=
      match lookupReg raw_registry clean_input with
      | some meta =>
        match meta.amfi with
        | some a => if a = "" then clean_input else a
        | none => clean_input
      | none => clean_input
    base ++ [{ code := resolved_amfi, name := guest_name, is_guest := true }]

/-! Theorems. -/

/-- Claim C3: on a non-empty series whose first nav is nonzero,
normalization keeps every date in order, maps every nav to
nav / first_nav * 100, and the first normalized value is exactly 100. -/
theorem C3_normalize (p0 : NavPoint) (rest : List NavPoint) (hnz : p0.nav ≠ 0) :
    (normalizeSeries (p0 :: rest)).map NavPoint.date = (p0 :: rest).map NavPoint.date ∧
    (normalizeSeries (p0 :: rest)).map NavPoint.nav
      = (p0 :: rest).map (fun q => q.nav / p0.nav * 100) ∧
    (normalizeSeries (p0 :: rest)).head? = some { p0 with nav := 100 } := by
  refine ⟨?_, ?_, ?_⟩
  · simp [normalizeSeries, List.map_map, Function.comp]
  · simp [normalizeSeries, List.map_map, Function.comp]
  · simp [normalizeSeries, div_self hnz]

/-- Witness for C3 at a concrete two-point series. -/
theorem C3_normalize_witness :
    (({ date := ⟨2023, 1, 1⟩, nav := 10 } : NavPoint).nav ≠ 0) ∧
    ((normalizeSeries (({ date := ⟨2023, 1, 1⟩, nav := 10 } : NavPoint) :: [({ date := ⟨2024, 1, 1⟩, nav := 12 } : NavPoint)])).map NavPoint.date
        = (({ date := ⟨2023, 1, 1⟩, nav := 10 } : NavPoint) :: [({ date := ⟨2024, 1, 1⟩, nav := 12 } : NavPoint)]).map NavPoint.date ∧
      (normalizeSeries (({ date := ⟨2023, 1, 1⟩, nav := 10 } : NavPoint) :: [({ date := ⟨2024, 1, 1⟩, nav := 12 } : NavPoint)])).map NavPoint.nav
        = (({ date := ⟨2023, 1, 1⟩, nav := 10 } : NavPoint) :: [({ date := ⟨2024, 1, 1⟩, nav := 12 } : NavPoint)]).map
            (fun q => q.nav / ({ date := ⟨2023, 1, 1⟩, nav := 10 } : NavPoint).nav * 100) ∧
      (normalizeSeries (({ date := ⟨2023, 1, 1⟩, nav := 10 } : NavPoint) :: [({ date := ⟨2024, 1, 1⟩, nav := 12 } : NavPoint)])).head?
        = some { date := ⟨2023, 1, 1⟩, nav := 100 }) :=
  ⟨by norm_num, C3_normalize { date := ⟨2023, 1, 1⟩, nav := 10 } [{ date := ⟨2024, 1, 1⟩, nav := 12 }] (by norm_num)⟩

/-- Claim C4: the history fetcher returns the empty series on a transport
error, a non-success status, a malformed body, an empty data list, and a
data list whose records fail to parse; the embedding is a total function,
so no case propagates an exception. -/
theorem C4_fetch_errors (st : Nat) (b : Body) (nl : List RawRecord) :
    get_nav_history .transportError = [] ∧
    (st ≠ 200 → get_nav_history (.response st b) = []) ∧
    get_nav_history (.response 200 .malformed) = [] ∧
    get_nav_history (.response st (.json [])) = [] ∧
    (parseRecords nl = none → get_nav_history (.response 200 (.json nl)) = []) := by
  refine ⟨rfl, ?_, rfl, ?_, ?_⟩
  · intro h
    simp [get_nav_history, h]
  · by_cases h : st = 200 <;> simp [get_nav_history, h]
  · intro h
    by_cases hnl : nl = [] <;> simp [get_nav_history, h, hnl]

/-- Witness for C4: a 404 response and a body with an unparseable date both
yield the empty series. -/
theorem C4_fetch_errors_witness :
    ((404 : Nat) ≠ 200 ∧ parseRecords [{ date := "bad", nav := "10" }] = none) ∧
    (get_nav_history (.response 404 .malformed) = [] ∧
     get_nav_history (.response 200 (.json [{ date := "bad", nav := "10" }])) = []) :=
  ⟨⟨by decide, by decide⟩,
   (C4_fetch_errors 404 .malformed []).2.1 (by decide),
   (C4_fetch_errors 404 .malformed [{ date := "bad", nav := "10" }]).2.2.2.2 (by decide)⟩

/-- Claim C10: one entry with a truthy source code and a truthy but
all-whitespace scheme name makes the whole loader return the two empty
views, discarding every other entry (the [0] index on an empty split
raises inside the try block, and the except branch returns two empty
dicts). -/
theorem C10_whitespace_aborts (entries : List (String × RegEntry)) (k : String) (e : RegEntry)
    (hmem : (k, e) ∈ entries) (hbad : badEntry k e = true) :
    load_fund_registry (.content entries) = ([], []) := by
  have hany : entries.any (fun x => badEntry x.1 x.2) = true :=
    List.any_eq_true.mpr ⟨(k, e), hmem, hbad⟩
  simp [load_fund_registry, hany]

/-- Witness for C10: a well-formed entry next to a whitespace-named entry
is discarded with everything else. -/
theorem C10_whitespace_aborts_witness :
    ((("Y", ({ scheme := some ("   "), amfi := some ("7") } : RegEntry))
        ∈ [("G", ({ scheme := some ("Good Fund"), amfi := some ("1") } : RegEntry)),
           ("Y", ({ scheme := some ("   "), amfi := some ("7") } : RegEntry))]) ∧
     badEntry ("Y") { scheme := some ("   "), amfi := some ("7") } = true) ∧
    load_fund_registry (.content
      [("G", ({ scheme := some ("Good Fund"), amfi := some ("1") } : RegEntry)),
       ("Y", ({ scheme := some ("   "), amfi := some ("7") } : RegEntry))]) = ([], []) :=
  ⟨⟨by decide, by decide⟩,
   C10_whitespace_aborts _ ("Y") { scheme := some ("   "), amfi := some ("7") }
     (by decide) (by decide)⟩

/-- Claim C2: for a series with a latest date and a lookback from the
sidebar map, a non-Max lookback of m months keeps exactly the points whose
date is at or after the latest date minus m calendar months (subMonths is
calendar-month arithmetic with day clamping, the model of pandas
DateOffset), and the Max sentinel keeps every point. The filter is a total
function into lists, so an emptied series is returned as the empty list
rather than an error. -/
theorem C2_window_filter (df : List NavPoint) (end_date : Date) (label : String) (m : Nat)
    (hmax : maxDateOf df = some end_date) (hmem : (label, m) ∈ time_map) :
    (m ≠ 999 → ∀ p, p ∈ applyLookback df m ↔
      (p ∈ df ∧ toDays (subMonths end_date m) ≤ toDays p.date)) ∧
    (m = 999 → applyLookback df m = df) := by
  constructor
  · intro h999 p
    simp [applyLookback, h999, hmax, List.mem_filter]
  · intro h
    subst h
    simp [applyLookback]

/-- Witness for C2 at a concrete three-point series and the 3M lookback. -/
theorem C2_window_filter_witness :
    (maxDateOf [({ date := ⟨2023, 1, 1⟩, nav := 10 } : NavPoint),
        { date := ⟨2023, 9, 1⟩, nav := 11 }, { date := ⟨2024, 1, 1⟩, nav := 12 }]
      = some ⟨2024, 1, 1⟩ ∧ ("3M", 3) ∈ time_map) ∧
    ((3 ≠ 999 → ∀ p, p ∈ applyLookback [({ date := ⟨2023, 1, 1⟩, nav := 10 } : NavPoint),
        { date := ⟨2023, 9, 1⟩, nav := 11 }, { date := ⟨2024, 1, 1⟩, nav := 12 }] 3 ↔
      (p ∈ [({ date := ⟨2023, 1, 1⟩, nav := 10 } : NavPoint),
        { date := ⟨2023, 9, 1⟩, nav := 11 }, { date := ⟨2024, 1, 1⟩, nav := 12 }] ∧
       toDays (subMonths ⟨2024, 1, 1⟩ 3) ≤ toDays p.date)) ∧
     (3 = 999 → applyLookback [({ date := ⟨2023, 1, 1⟩, nav := 10 } : NavPoint),
        { date := ⟨2023, 9, 1⟩, nav := 11 }, { date := ⟨2024, 1, 1⟩, nav := 12 }] 3
      = [({ date := ⟨2023, 1, 1⟩, nav := 10 } : NavPoint),
        { date := ⟨2023, 9, 1⟩, nav := 11 }, { date := ⟨2024, 1, 1⟩, nav := 12 }])) :=
  ⟨⟨by decide, by decide⟩,
   C2_window_filter [({ date := ⟨2023, 1, 1⟩, nav := 10 } : NavPoint),
        { date := ⟨2023, 9, 1⟩, nav := 11 }, { date := ⟨2024, 1, 1⟩, nav := 12 }]
     ⟨2024, 1, 1⟩ ("3M") 3 (by decide) (by decide)⟩

/-- Claim C5 counterexample: with a blank guest label the guest target
keeps the blank label; nothing replaces it by the Benchmark default the
claim states. -/
theorem C5_counterexample :
    resolveTargets [] ("100") ("") []
      = [{ code := "100", name := "", is_guest := true }] ∧
    ¬ (∀ t ∈ resolveTargets [] ("100") ("") [], t.is_guest = true → t.name = "Benchmark") := by
  constructor
  · decide
  · decide

/-- Claim C5 as amended: basket targets come first in basket order as
non-guest targets with the item codes and names; an empty basket with an
empty guest input yields the empty list; a truthy guest input is trimmed
and uppercased, its code taken from a matching registry entry only when
that entry has a truthy amfi field and taken verbatim otherwise, and the
guest label is the supplied label string used verbatim (blank stays
blank). -/
theorem C5_resolve (basket : List FundItem) (gi gname : String) (reg : List (String × RegEntry)) :
    (gi = "" → resolveTargets basket gi gname reg
      = basket.map (fun it => { code := it.amfi, name := it.name, is_guest := false })) ∧
    (basket = [] → gi = "" → resolveTargets basket gi gname reg = []) ∧
    (gi ≠ "" → ∀ meta a, lookupReg reg (pyStripUpper gi) = some meta → meta.amfi = some a →
      a ≠ "" →
      resolveTargets basket gi gname reg
        = basket.map (fun it => { code := it.amfi, name := it.name, is_guest := false })
          ++ [{ code := a, name := gname, is_guest := true }]) ∧
    (gi ≠ "" → lookupReg reg (pyStripUpper gi) = none →
      resolveTargets basket gi gname reg
        = basket.map (fun it => { code := it.amfi, name := it.name, is_guest := false })
          ++ [{ code := pyStripUpper gi, name := gname, is_guest := true }]) ∧
    (gi ≠ "" → ∀ meta, lookupReg reg (pyStripUpper gi) = some meta →
      (meta.amfi = none ∨ meta.amfi = some "") →
      resolveTargets basket gi gname reg
        = basket.map (fun it => { code := it.amfi, name := it.name, is_guest := false })
          ++ [{ code := pyStripUpper gi, name := gname, is_guest := true }]) := by
  refine ⟨?_, ?_, ?_, ?_, ?_⟩
  · intro h
    simp [resolveTargets, h]
  · intro hb h
    subst hb
    simp [resolveTargets, h]
  · intro h meta a hl ha hne
    simp [resolveTargets, h, hl, ha, hne]
  · intro h hl
    simp [resolveTargets, h, hl]
  · intro h meta hl hcase
    rcases hcase with hc | hc <;> simp [resolveTargets, h, hl, hc]

/-- Witness for C5: a lowercase padded guest input resolves through the
registry to the stored code, as in scenario 5 of the spec. -/
theorem C5_resolve_witness :
    ((" inf000a " : String) ≠ "" ∧
     lookupReg [("INF000A", ({ scheme := some ("Alpha"), amfi := some ("100") } : RegEntry))]
        (pyStripUpper " inf000a ")
      = some { scheme := some ("Alpha"), amfi := some ("100") } ∧
     ("100" : String) ≠ "") ∧
    resolveTargets [] (" inf000a ") ("B")
        [("INF000A", ({ scheme := some ("Alpha"), amfi := some ("100") } : RegEntry))]
      = List.map (fun it : FundItem => { code := it.amfi, name := it.name, is_guest := false : Target })
          ([] : List FundItem)
        ++ [{ code := "100", name := "B", is_guest := true }] :=
  ⟨⟨by decide, by decide, by decide⟩,
   (C5_resolve [] (" inf000a ") ("B")
       [("INF000A", ({ scheme := some ("Alpha"), amfi := some ("100") } : RegEntry))]).2.2.1
     (by decide) { scheme := some ("Alpha"), amfi := some ("100") } ("100")
     (by decide) rfl (by decide)⟩

/-- Claim C7 counterexample: a body with two records on the same date
comes back with both records and the shared date, so the returned series
is not strictly increasing and not deduplicated by date. -/
theorem C7_counterexample :
    (get_nav_history (.response 200 (.json
        [{ date := "01-01-2023", nav := "10" }, { date := "01-01-2023", nav := "11" }]))).map
      NavPoint.date = [⟨2023, 1, 1⟩, ⟨2023, 1, 1⟩] ∧
    ¬ List.Pairwise (fun p q : NavPoint => toDays p.date < toDays q.date)
      (get_nav_history (.response 200 (.json
        [{ date := "01-01-2023", nav := "10" }, { date := "01-01-2023", nav := "11" }]))) := by
  constructor
  · decide
  · decide

/-- Claim C7 as amended: every series returned by the history fetch is
sorted non-decreasing by date, and on a successful fetch it is a
permutation of the parsed records, so points sharing a date are all
retained rather than deduplicated. -/
theorem C7_sorted (o : FetchOutcome) :
    List.Sorted dateLe (get_nav_history o) ∧
    (∀ nl pts, nl ≠ [] → parseRecords nl = some pts →
      (get_nav_history (.response 200 (.json nl))).Perm pts) := by
  constructor
  · cases o with
    | transportError => simp [get_nav_history]
    | response st b =>
      by_cases hst : st = 200
      · subst hst
        cases b with
        | malformed => simp [get_nav_history]
        | json navList =>
          by_cases hnl : navList = []
          · simp [get_nav_history, hnl]
          · cases hpr : parseRecords navList with
            | none => simp [get_nav_history, hnl, hpr]
            | some pts =>
              simp only [get_nav_history, hnl, hpr, if_pos rfl, if_neg hnl]
              exact List.sorted_insertionSort dateLe pts
      · simp [get_nav_history, hst]
  · intro nl pts h1 h2
    simp only [get_nav_history, h1, h2, if_pos rfl, if_neg h1]
    exact List.perm_insertionSort dateLe pts

/-- Witness for C7: a two-record body arriving in reverse date order. -/
theorem C7_sorted_witness :
    (([({ date := "01-01-2024", nav := "12" } : RawRecord),
        { date := "01-01-2023", nav := "10" }] : List RawRecord) ≠ [] ∧
     parseRecords [({ date := "01-01-2024", nav := "12" } : RawRecord),
        { date := "01-01-2023", nav := "10" }]
      = some [{ date := ⟨2024, 1, 1⟩, nav := 12 }, { date := ⟨2023, 1, 1⟩, nav := 10 }]) ∧
    (get_nav_history (.response 200 (.json
        [({ date := "01-01-2024", nav := "12" } : RawRecord),
         { date := "01-01-2023", nav := "10" }]))).Perm
      [{ date := ⟨2024, 1, 1⟩, nav := 12 }, { date := ⟨2023, 1, 1⟩, nav := 10 }] :=
  ⟨⟨by decide, by decide⟩,
   (C7_sorted .transportError).2
     [({ date := "01-01-2024", nav := "12" } : RawRecord), { date := "01-01-2023", nav := "10" }]
     [{ date := ⟨2024, 1, 1⟩, nav := 12 }, { date := ⟨2023, 1, 1⟩, nav := 10 }]
     (by decide) (by decide)⟩

/-- Claim C8 (the code lacks the claimed guard): with a zero first nav the
normalization block performs the division anyway and returns a series, and
calculate_metrics returns a populated record; neither operation fails with
a DivisionByZero signal. In this rational model the unguarded division by
zero collapses to 0 (in the numpy floats of the source it yields a
non-finite value with a warning); either way no exception is raised. -/
theorem C8_unguarded :
    normalizeSeries [{ date := ⟨2023, 1, 1⟩, nav := 0 }, { date := ⟨2024, 1, 1⟩, nav := 5 }]
      = [{ date := ⟨2023, 1, 1⟩, nav := 0 }, { date := ⟨2024, 1, 1⟩, nav := 0 }] ∧
    (calculate_metrics [{ date := ⟨2023, 1, 1⟩, nav := 0 }, { date := ⟨2024, 1, 1⟩, nav := 5 }]
        ("F")).isSome = true := by
  constructor
  · simp [normalizeSeries]
  · simp [calculate_metrics]

/-- Adding an item never changes the group keys, except for appending the
new key when it is absent. -/
theorem addToGroup_keys (idx : List (String × List FundItem)) (k : String) (it : FundItem) :
    (addToGroup idx k it).map Prod.fst = idx.map Prod.fst ∨
    ((addToGroup idx k it).map Prod.fst = idx.map Prod.fst ++ [k] ∧ k ∉ idx.map Prod.fst) := by
  induction idx with
  | nil => right; simp [addToGroup]
  | cons p rest ih =>
    obtain ⟨g, its⟩ := p
    by_cases hg : g = k
    · left
      simp [addToGroup, hg]
    · rcases ih with h | ⟨h, hn⟩
      · left
        simp [addToGroup, hg, h]
      · right
        constructor
        · simp [addToGroup, hg, h]
        · simp only [List.map_cons, List.mem_cons]
          rintro (rfl | hk)
          · exact hg rfl
          · exact hn hk

/-- Adding an item preserves distinctness of the group keys. -/
theorem addToGroup_keys_nodup (idx : List (String × List FundItem)) (k : String) (it : FundItem)
    (h : (idx.map Prod.fst).Nodup) : ((addToGroup idx k it).map Prod.fst).Nodup := by
  rcases addToGroup_keys idx k it with heq | ⟨heq, hn⟩
  · rwa [heq]
  · rw [heq]
    simp [List.nodup_append, h, hn]

/-- Adding an item under its own derived key preserves the grouped-view
invariant. -/
theorem addToGroup_inv (idx : List (String × List FundItem)) (k : String) (it : FundItem)
    (h : GroupInv idx) (hk : k = groupKey it.name) (ha : it.amfi ≠ "") :
    GroupInv (addToGroup idx k it) := by
  induction idx with
  | nil =>
    intro g its hmem x hx
    simp only [addToGroup, List.mem_singleton] at hmem
    cases hmem
    simp only [List.mem_singleton] at hx
    subst hx
    exact ⟨hk, ha⟩
  | cons p rest ih =>
    obtain ⟨g0, its0⟩ := p
    intro g its hmem x hx
    by_cases hg : g0 = k
    · simp only [addToGroup, if_pos hg] at hmem
      rcases List.mem_cons.mp hmem with h1 | h1
      · cases h1
        rcases List.mem_append.mp hx with h2 | h2
        · exact h g0 its0 (List.mem_cons_self _ _) x h2
        · simp only [List.mem_singleton] at h2
          subst h2
          exact ⟨hg.trans hk, ha⟩
      · exact h g its (List.mem_cons_of_mem _ h1) x hx
    · simp only [addToGroup, if_neg hg] at hmem
      rcases List.mem_cons.mp hmem with h1 | h1
      · cases h1
        exact h g0 its0 (List.mem_cons_self _ _) x hx
      · exact ih (fun g2 its2 hm => h g2 its2 (List.mem_cons_of_mem _ hm)) g its h1 x hx

/-- The added item lands in the group of its key. -/
theorem addToGroup_mem_self (idx : List (String × List FundItem)) (k : String) (it : FundItem) :
    ∃ its, (k, its) ∈ addToGroup idx k it ∧ it ∈ its := by
  induction idx with
  | nil => exact ⟨[it], by simp [addToGroup], by simp⟩
  | cons p rest ih =>
    obtain ⟨g0, its0⟩ := p
    by_cases hg : g0 = k
    · refine ⟨its0 ++ [it], ?_, by simp⟩
      simp [addToGroup, hg]
    · obtain ⟨its, hm, hx⟩ := ih
      exact ⟨its, by simp [addToGroup, hg, hm], hx⟩

/-- Items already placed stay in their group when another item is added. -/
theorem addToGroup_mem_mono (idx : List (String × List FundItem)) (k : String) (it : FundItem)
    (g : String) (x : FundItem) (its : List FundItem)
    (h : (g, its) ∈ idx) (hx : x ∈ its) :
    ∃ its2, (g, its2) ∈ addToGroup idx k it ∧ x ∈ its2 := by
  induction idx with
  | nil => cases h
  | cons p rest ih =>
    obtain ⟨g0, its0⟩ := p
    rcases List.mem_cons.mp h with h1 | h1
    · cases h1
      by_cases hg : g = k
      · refine ⟨its ++ [it], ?_, List.mem_append_left _ hx⟩
        simp [addToGroup, hg]
      · exact ⟨its, by simp [addToGroup, hg], hx⟩
    · by_cases hg : g0 = k
      · exact ⟨its, by simp [addToGroup, hg, h1], hx⟩
      · obtain ⟨its2, hm, hx2⟩ := ih h1
        exact ⟨its2, by simp [addToGroup, hg, hm], hx2⟩

/-- One loop iteration preserves the grouped-view invariant. -/
theorem registryStep_inv (idx : List (String × List FundItem)) (e : String × RegEntry)
    (h : GroupInv idx) : GroupInv (registryStep idx e) := by
  obtain ⟨k0, meta⟩ := e
  cases hm : meta.amfi with
  | none => simpa [registryStep, hm] using h
  | some a =>
    by_cases ha : a = ""
    · simpa [registryStep, hm, ha] using h
    · simp only [registryStep, hm, if_neg ha]
      exact addToGroup_inv _ _ _ h rfl ha

/-- One loop iteration preserves distinctness of the group keys. -/
theorem registryStep_keys_nodup (idx : List (String × List FundItem)) (e : String × RegEntry)
    (h : (idx.map Prod.fst).Nodup) : ((registryStep idx e).map Prod.fst).Nodup := by
  obtain ⟨k0, meta⟩ := e
  cases hm : meta.amfi with
  | none => simpa [registryStep, hm] using h
  | some a =>
    by_cases ha : a = ""
    · simpa [registryStep, hm, ha] using h
    · simp only [registryStep, hm, if_neg ha]
      exact addToGroup_keys_nodup _ _ _ h

/-- One loop iteration keeps every already-placed item in its group. -/
theorem registryStep_mem_mono (idx : List (String × List FundItem)) (e : String × RegEntry)
    (g : String) (x : FundItem) (its : List FundItem)
    (h : (g, its) ∈ idx) (hx : x ∈ its) :
    ∃ its2, (g, its2) ∈ registryStep idx e ∧ x ∈ its2 := by
  obtain ⟨k0, meta⟩ := e
  cases hm : meta.amfi with
  | none => exact ⟨its, by simp [registryStep, hm, h], hx⟩
  | some a =>
    by_cases ha : a = ""
    · exact ⟨its, by simp [registryStep, hm, ha, h], hx⟩
    · simp only [registryStep, hm, if_neg ha]
      exact addToGroup_mem_mono _ _ _ _ _ _ h hx

/-- The whole loop preserves the grouped-view invariant. -/
theorem foldl_registryStep_inv (entries : List (String × RegEntry))
    (acc : List (String × List FundItem)) (h : GroupInv acc) :
    GroupInv (entries.foldl registryStep acc) := by
  induction entries generalizing acc with
  | nil => exact h
  | cons e es ih => exact ih _ (registryStep_inv acc e h)

/-- The whole loop preserves distinctness of the group keys. -/
theorem foldl_registryStep_keys_nodup (entries : List (String × RegEntry))
    (acc : List (String × List FundItem)) (h : (acc.map Prod.fst).Nodup) :
    ((entries.foldl registryStep acc).map Prod.fst).Nodup := by
  induction entries generalizing acc with
  | nil => exact h
  | cons e es ih => exact ih _ (registryStep_keys_nodup acc e h)

/-- The whole loop keeps every already-placed item in its group. -/
theorem foldl_registryStep_mem_mono (entries : List (String × RegEntry))
    (acc : List (String × List FundItem)) (g : String) (x : FundItem) (its : List FundItem)
    (h : (g, its) ∈ acc) (hx : x ∈ its) :
    ∃ its2, (g, its2) ∈ entries.foldl registryStep acc ∧ x ∈ its2 := by
  induction entries generalizing acc its with
  | nil => exact ⟨its, h, hx⟩
  | cons e es ih =>
    obtain ⟨its2, hm, hx2⟩ := registryStep_mem_mono acc e g x its h hx
    exact ih _ _ hm hx2

/-- Every entry with a truthy amfi field places its item in the group of
its derived key. -/
theorem foldl_registryStep_mem_entry (entries : List (String × RegEntry))
    (acc : List (String × List FundItem)) (k : String) (e : RegEntry) (a : String)
    (hmem : (k, e) ∈ entries) (ha : e.amfi = some a) (hne : a ≠ "") :
    ∃ its, (groupKey (entryName k e), its) ∈ entries.foldl registryStep acc ∧
      ({ label := entryName k e, amfi := a, name := entryName k e } : FundItem) ∈ its := by
  induction entries generalizing acc with
  | nil => cases hmem
  | cons e0 es ih =>
    rcases List.mem_cons.mp hmem with h1 | h1
    · subst h1
      have hstep : registryStep acc (k, e)
          = addToGroup acc (groupKey (entryName k e))
              { label := entryName k e, amfi := a, name := entryName k e } := by
        simp [registryStep, ha, hne]
      obtain ⟨its, hm, hx⟩ := addToGroup_mem_self acc (groupKey (entryName k e))
        { label := entryName k e, amfi := a, name := entryName k e }
      rw [← hstep] at hm
      exact foldl_registryStep_mem_mono es _ _ _ _ hm hx
    · exact ih _ h1

/-- Membership in the sorted grouped view comes from membership before the
sorting pass. -/
theorem sortGroups_mem (idx : List (String × List FundItem)) (g : String) (its : List FundItem) :
    (g, its) ∈ sortGroups idx ↔
      ∃ its0, (g, its0) ∈ idx ∧ its = List.insertionSort labelLe its0 := by
  constructor
  · intro h
    obtain ⟨p, hp, heq⟩ := List.mem_map.mp h
    obtain ⟨g0, its0⟩ := p
    simp only [Prod.mk.injEq] at heq
    obtain ⟨rfl, rfl⟩ := heq
    exact ⟨its0, hp, rfl⟩
  · rintro ⟨its0, h0, rfl⟩
    exact List.mem_map.mpr ⟨(g, its0), h0, rfl⟩

/-- An association list with distinct keys determines its values. -/
theorem assoc_keys_nodup_eq {β : Type} (l : List (String × β))
    (h : (l.map Prod.fst).Nodup) (a : String) (b c : β)
    (h1 : (a, b) ∈ l) (h2 : (a, c) ∈ l) : b = c := by
  induction l with
  | nil => cases h1
  | cons p t ih =>
    simp only [List.map_cons, List.nodup_cons] at h
    rcases List.mem_cons.mp h1 with e1 | e1 <;> rcases List.mem_cons.mp h2 with e2 | e2
    · rw [← e1] at e2
      exact (Prod.mk.injEq .. ▸ e2).2.symm
    · exfalso
      apply h.1
      exact List.mem_map.mpr ⟨(a, c), e2, by rw [← e1]⟩
    · exfalso
      apply h.1
      exact List.mem_map.mpr ⟨(a, b), e1, by rw [← e2]⟩
    · exact ih h.2 e1 e2

/-- Claim C6 counterexample: an entry lacking a source code is returned in
the identifier-lookup view verbatim (the loader hands the parsed JSON
object back untouched), so such entries are excluded only from the grouped
view, not from both views as the claim states. -/
theorem C6_counterexample :
    (load_fund_registry (.content
        [("X", ({ scheme := some ("Zed Fund"), amfi := none } : RegEntry))])).1 = [] ∧
    ("X", ({ scheme := some ("Zed Fund"), amfi := none } : RegEntry))
      ∈ (load_fund_registry (.content
          [("X", ({ scheme := some ("Zed Fund"), amfi := none } : RegEntry))])).2 := by
  constructor
  · decide
  · decide

/-- Claim C6 as amended: on a well-formed registry (no entry that makes
the loader loop raise), the lookup view is the registry verbatim, every
entry with a truthy source code appears with its derived item in the group
of the uppercased first token of its scheme name, every grouped item sits
in exactly one group (the one derived from its own name) and carries a
non-empty code, and every group list is sorted ascending by label. Entries
lacking a source code are excluded from the grouped view only; they remain
visible in the lookup view. -/
theorem C6_registry_views (entries : List (String × RegEntry))
    (amc : List (String × List FundItem)) (raw : List (String × RegEntry))
    (hwf : entries.any (fun e => badEntry e.1 e.2) = false)
    (hload : load_fund_registry (.content entries) = (amc, raw)) :
    raw = entries ∧
    (∀ k e a, (k, e) ∈ entries → e.amfi = some a → a ≠ "" →
      ∃ its, (groupKey (entryName k e), its) ∈ amc ∧
        ({ label := entryName k e, amfi := a, name := entryName k e } : FundItem) ∈ its) ∧
    (∀ g its it, (g, its) ∈ amc → it ∈ its → g = groupKey it.name ∧ it.amfi ≠ "") ∧
    (∀ g its g2 its2 it, (g, its) ∈ amc → (g2, its2) ∈ amc → it ∈ its → it ∈ its2 →
      g = g2 ∧ its = its2) ∧
    (∀ g its, (g, its) ∈ amc → List.Sorted labelLe its) := by
  simp only [load_fund_registry, hwf, Bool.false_eq_true, if_false] at hload
  cases hload
  have hinv : GroupInv (buildGroups entries) :=
    foldl_registryStep_inv entries [] (by intro g its h; cases h)
  have hnd : ((buildGroups entries).map Prod.fst).Nodup :=
    foldl_registryStep_keys_nodup entries [] (by simp)
  refine ⟨rfl, ?_, ?_, ?_, ?_⟩
  · intro k e a hmem ha hne
    obtain ⟨its, hm, hx⟩ := foldl_registryStep_mem_entry entries [] k e a hmem ha hne
    refine ⟨List.insertionSort labelLe its, (sortGroups_mem _ _ _).mpr ⟨its, hm, rfl⟩, ?_⟩
    exact ((List.perm_insertionSort labelLe its).mem_iff).mpr hx
  · intro g its it hg hit
    obtain ⟨its0, h0, rfl⟩ := (sortGroups_mem _ _ _).mp hg
    exact hinv g its0 h0 it (((List.perm_insertionSort labelLe its0).mem_iff).mp hit)
  · intro g its g2 its2 it hg hg2 hit hit2
    obtain ⟨its0, h0, rfl⟩ := (sortGroups_mem _ _ _).mp hg
    obtain ⟨its20, h20, rfl⟩ := (sortGroups_mem _ _ _).mp hg2
    have e1 := hinv g its0 h0 it (((List.perm_insertionSort labelLe its0).mem_iff).mp hit)
    have e2 := hinv g2 its20 h20 it (((List.perm_insertionSort labelLe its20).mem_iff).mp hit2)
    have hgg : g = g2 := e1.1.trans e2.1.symm
    subst hgg
    have heq : its0 = its20 := assoc_keys_nodup_eq _ hnd g its0 its20 h0 h20
    subst heq
    exact ⟨rfl, rfl⟩
  · intro g its hg
    obtain ⟨its0, h0, rfl⟩ := (sortGroups_mem _ _ _).mp hg
    exact List.sorted_insertionSort labelLe its0

/-- Witness for C6 at the one-entry registry of scenario 1 of the spec. -/
theorem C6_registry_views_witness :
    (([("INF000A", ({ scheme := some ("Alpha Growth Fund"), amfi := some ("100") } : RegEntry))].any
        (fun e => badEntry e.1 e.2) = false) ∧
     load_fund_registry (.content
        [("INF000A", ({ scheme := some ("Alpha Growth Fund"), amfi := some ("100") } : RegEntry))])
       = ([("ALPHA", [{ label := "Alpha Growth Fund", amfi := "100", name := "Alpha Growth Fund" }])],
          [("INF000A", ({ scheme := some ("Alpha Growth Fund"), amfi := some ("100") } : RegEntry))])) ∧
    ([("INF000A", ({ scheme := some ("Alpha Growth Fund"), amfi := some ("100") } : RegEntry))]
        = [("INF000A", ({ scheme := some ("Alpha Growth Fund"), amfi := some ("100") } : RegEntry))] ∧
     (∀ k e a,
        (k, e) ∈ [("INF000A", ({ scheme := some ("Alpha Growth Fund"), amfi := some ("100") } : RegEntry))] →
        e.amfi = some a → a ≠ "" →
        ∃ its, (groupKey (entryName k e), its)
            ∈ [("ALPHA", [({ label := "Alpha Growth Fund", amfi := "100", name := "Alpha Growth Fund" } : FundItem)])] ∧
          ({ label := entryName k e, amfi := a, name := entryName k e } : FundItem) ∈ its) ∧
     (∀ g its it,
        (g, its) ∈ [("ALPHA", [({ label := "Alpha Growth Fund", amfi := "100", name := "Alpha Growth Fund" } : FundItem)])] →
        it ∈ its → g = groupKey it.name ∧ it.amfi ≠ "") ∧
     (∀ g its g2 its2 it,
        (g, its) ∈ [("ALPHA", [({ label := "Alpha Growth Fund", amfi := "100", name := "Alpha Growth Fund" } : FundItem)])] →
        (g2, its2) ∈ [("ALPHA", [({ label := "Alpha Growth Fund", amfi := "100", name := "Alpha Growth Fund" } : FundItem)])] →
        it ∈ its → it ∈ its2 → g = g2 ∧ its = its2) ∧
     (∀ g its,
        (g, its) ∈ [("ALPHA", [({ label := "Alpha Growth Fund", amfi := "100", name := "Alpha Growth Fund" } : FundItem)])] →
        List.Sorted labelLe its)) :=
  ⟨⟨by decide, by decide⟩, C6_registry_views _ _ _ (by decide) (by decide)⟩

/-- Claim C1: on fewer than 2 points calculate_metrics returns none; on a
date-ordered series of at least 2 points it returns a record whose total
return is (last_nav - first_nav) / first_nav * 100, whose duration is the
day difference over 365.25 (1461/4), and whose CAGR cell carries the value
((last_nav / first_nav) ^ (1 / years) - 1) * 100 exactly when
years >= 0.9 and is the N/A marker whenever years < 0.9, including a zero
duration. -/
theorem C1_metrics (df : List NavPoint) (label : String) :
    (df.length < 2 → calculate_metrics df label = none) ∧
    (∀ p0 pl, 2 ≤ df.length → df.head? = some p0 → df.getLast? = some pl →
      toDays p0.date ≤ toDays pl.date →
      ∃ mrec, calculate_metrics df label = some mrec ∧
        mrec.totalReturn = (pl.nav - p0.nav) / p0.nav * 100 ∧
        mrec.years = ((toDays pl.date - toDays p0.date : Int) : ℚ) / (1461 / 4) ∧
        ((9 : ℚ) / 10 ≤ mrec.years →
          mrec.cagr = some ((((pl.nav / p0.nav : ℚ) : ℝ) ^ ((1 : ℝ) / ((mrec.years : ℚ) : ℝ)) - 1) * 100)) ∧
        (mrec.years < (9 : ℚ) / 10 → mrec.cagr = none)) := by
  constructor
  · intro h
    simp [calculate_metrics, h]
  · intro p0 pl h2 h0 hl hord
    have hlen : ¬ df.length < 2 := not_lt.mpr h2
    have hempty : df.isEmpty = false := by
      cases df
      · simp at h2
      · rfl
    simp only [calculate_metrics, hempty, h0, hl, hlen, Bool.false_or, decide_eq_true_eq,
      if_neg hlen]
    refine ⟨_, rfl, rfl, ?_, ?_, ?_⟩
    · by_cases hd : 0 < toDays pl.date - toDays p0.date
      · simp [hd]
      · have h0d : toDays pl.date - toDays p0.date = 0 := by omega
        simp [hd, h0d]
    · intro h9
      simp only at h9
      have hY : (0 : ℚ) < (if 0 < toDays pl.date - toDays p0.date
          then ((toDays pl.date - toDays p0.date : Int) : ℚ) / (1461 / 4) else 0) := by
        refine lt_of_lt_of_le ?_ h9
        norm_num
      simp only [if_pos h9, hY, if_pos hY, if_true]
    · intro h9
      simp only at h9
      simp only [if_neg (not_le.mpr h9)]

/-- Witness for C1 at the two-point series of scenario 2 of the spec. -/
theorem C1_metrics_witness :
    (2 ≤ ([({ date := ⟨2023, 1, 1⟩, nav := 10 } : NavPoint),
        { date := ⟨2024, 1, 1⟩, nav := 12 }] : List NavPoint).length ∧
     ([({ date := ⟨2023, 1, 1⟩, nav := 10 } : NavPoint),
        { date := ⟨2024, 1, 1⟩, nav := 12 }] : List NavPoint).head?
       = some { date := ⟨2023, 1, 1⟩, nav := 10 } ∧
     ([({ date := ⟨2023, 1, 1⟩, nav := 10 } : NavPoint),
        { date := ⟨2024, 1, 1⟩, nav := 12 }] : List NavPoint).getLast?
       = some { date := ⟨2024, 1, 1⟩, nav := 12 } ∧
     toDays (⟨2023, 1, 1⟩ : Date) ≤ toDays (⟨2024, 1, 1⟩ : Date)) ∧
    (∃ mrec, calculate_metrics [({ date := ⟨2023, 1, 1⟩, nav := 10 } : NavPoint),
        { date := ⟨2024, 1, 1⟩, nav := 12 }] ("F") = some mrec ∧
      mrec.totalReturn = ((12 : ℚ) - 10) / 10 * 100 ∧
      mrec.years = ((toDays (⟨2024, 1, 1⟩ : Date) - toDays (⟨2023, 1, 1⟩ : Date) : Int) : ℚ) / (1461 / 4) ∧
      ((9 : ℚ) / 10 ≤ mrec.years →
        mrec.cagr = some ((((12 / 10 : ℚ) : ℝ) ^ ((1 : ℝ) / ((mrec.years : ℚ) : ℝ)) - 1) * 100)) ∧
      (mrec.years < (9 : ℚ) / 10 → mrec.cagr = none)) :=
  ⟨⟨by decide, by decide, by decide, by decide⟩,
   (C1_metrics [({ date := ⟨2023, 1, 1⟩, nav := 10 } : NavPoint),
      { date := ⟨2024, 1, 1⟩, nav := 12 }] ("F")).2
     { date := ⟨2023, 1, 1⟩, nav := 10 } { date := ⟨2024, 1, 1⟩, nav := 12 }
     (by decide) (by decide) (by decide) (by decide)⟩

/-- Claim C9: the CAGR cell computed from the normalized series is the one
computed from the raw series, for any series of at least 2 points with a
nonzero first nav: rebasing scales every nav by the same nonzero constant,
the dates are untouched, and the CAGR depends only on the last-to-first
ratio and the dates. -/
theorem C9_cagr_invariant (df : List NavPoint) (label : String) (p0 : NavPoint)
    (h0 : df.head? = some p0) (hnz : p0.nav ≠ 0) (h2 : 2 ≤ df.length) :
    Option.map Metrics.cagr (calculate_metrics (normalizeSeries df) label)
      = Option.map Metrics.cagr (calculate_metrics df label) := by
  cases df with
  | nil => cases h0
  | cons a rest =>
    rw [List.head?_cons] at h0
    injection h0 with ha
    subst ha
    have hne : (a :: rest) ≠ [] := by simp
    obtain ⟨pl, hlast⟩ := Option.isSome_iff_exists.mp
      ((List.getLast?_isSome (l := a :: rest)).mpr hne)
    have hns : normalizeSeries (a :: rest)
        = (a :: rest).map (fun q => { q with nav := q.nav / a.nav * 100 }) := rfl
    have hH : ((a :: rest).map (fun q => { q with nav := q.nav / a.nav * 100 })).head?
        = some { a with nav := a.nav / a.nav * 100 } := by
      rw [List.head?_map, List.head?_cons]
      rfl
    have hL : ((a :: rest).map (fun q => { q with nav := q.nav / a.nav * 100 })).getLast?
        = some { pl with nav := pl.nav / a.nav * 100 } := by
      rw [List.getLast?_map, hlast]
      rfl
    have hlen2 : ¬ (a :: rest).length < 2 := not_lt.mpr h2
    have hlenm : ¬ ((a :: rest).map (fun q => { q with nav := q.nav / a.nav * 100 })).length < 2 := by
      rw [List.length_map]
      exact hlen2
    have hempty2 : (a :: rest).isEmpty = false := rfl
    have hemptym : ((a :: rest).map (fun q => { q with nav := q.nav / a.nav * 100 })).isEmpty = false := rfl
    have hratio : (pl.nav / a.nav * 100) / (a.nav / a.nav * 100) = pl.nav / a.nav := by
      rw [div_self hnz, one_mul]
      exact mul_div_cancel_right₀ _ (by norm_num)
    rw [hns]
    simp only [calculate_metrics, hH, hL, List.head?_cons, hlast, hemptym, hempty2,
      Bool.false_or, decide_eq_true_eq, if_neg hlen2, if_neg hlenm]
    rw [hratio]
    rfl

/-- Witness for C9 at a concrete two-point series. -/
theorem C9_cagr_invariant_witness :
    (([({ date := ⟨2023, 1, 1⟩, nav := 10 } : NavPoint),
        { date := ⟨2024, 1, 1⟩, nav := 12 }] : List NavPoint).head?
       = some { date := ⟨2023, 1, 1⟩, nav := 10 } ∧
     ({ date := ⟨2023, 1, 1⟩, nav := 10 } : NavPoint).nav ≠ 0 ∧
     2 ≤ ([({ date := ⟨2023, 1, 1⟩, nav := 10 } : NavPoint),
        { date := ⟨2024, 1, 1⟩, nav := 12 }] : List NavPoint).length) ∧
    Option.map Metrics.cagr (calculate_metrics
        (normalizeSeries [({ date := ⟨2023, 1, 1⟩, nav := 10 } : NavPoint),
          { date := ⟨2024, 1, 1⟩, nav := 12 }]) ("F"))
      = Option.map Metrics.cagr (calculate_metrics
          [({ date := ⟨2023, 1, 1⟩, nav := 10 } : NavPoint),
            { date := ⟨2024, 1, 1⟩, nav := 12 }] ("F")) :=
  ⟨⟨by decide, by decide, by decide⟩,
   C9_cagr_invariant [({ date := ⟨2023, 1, 1⟩, nav := 10 } : NavPoint),
      { date := ⟨2024, 1, 1⟩, nav := 12 }] ("F") { date := ⟨2023, 1, 1⟩, nav := 10 }
     (by decide) (by decide) (by decide)⟩

end FundComparator
